import Mathlib

/-
Verification of the messaging backend: a shallow embedding of the
Django-signals messaging app (models.py / signals.py) and of the
messaging_app chats viewset actions (views.py), with theorems about the
notification pipeline, the edit-history pipeline, user cascade deletion,
and the read-tracking actions.
-/

namespace Messaging

/-- A user row of the auth table: primary key and username. -/
structure UserRow where
  id : Nat
  username : String
deriving DecidableEq, Repr

/-- An in-memory `Message` instance about to be saved. `pk` is `message_id`;
it is `none` only when explicitly unset (the model default assigns one). -/
structure MsgInstance where
  pk : Option Nat
  sender : UserRow
  receiver : UserRow
  content : String
  edited : Bool
  lastEditedAt : Option Nat
deriving DecidableEq, Repr

/-- A stored `Message` row. -/
structure MsgRow where
  pk : Nat
  sender : UserRow
  receiver : UserRow
  content : String
  edited : Bool
  lastEditedAt : Option Nat
deriving DecidableEq, Repr

/-- A stored `MessageHistory` row: owning message, snapshot of the prior
content, the `edited_by` reference (nullable, `SET_NULL`), edit time. -/
structure HistoryRow where
  messagePk : Nat
  oldContent : String
  editedBy : Option UserRow
  editedAt : Nat
deriving DecidableEq, Repr

/-- A stored `Notification` row: recipient, optional originating message,
type tag, content text, read flag, creation time. -/
structure NotificationRow where
  user : UserRow
  messagePk : Option Nat
  ntype : String
  content : String
  isRead : Bool
  createdAt : Nat
deriving DecidableEq, Repr

/-- Database state of the messaging app, plus the current clock value used
for `timezone.now()`. -/
structure State where
  messages : List MsgRow
  histories : List HistoryRow
  notifications : List NotificationRow
  now : Nat
deriving DecidableEq, Repr

/-- `Message.objects.get(pk=pk)` as a partial lookup over the stored rows. -/
def findMsg (msgs : List MsgRow) (pk : Nat) : Option MsgRow :=
  msgs.find? (fun m => m.pk == pk)

/-- The pre_save receiver `log_message_edit`: when the instance has a primary
key and a stored row with that key exists with different content, append a
`MessageHistory` row holding the old content with `edited_by = instance.sender`,
and mark the instance edited with `last_edited_at = timezone.now()`.  When no
stored row exists (`Message.DoesNotExist`) the handler passes silently. -/
def log_message_edit (st : State) (inst : MsgInstance) : State × MsgInstance :=
  match inst.pk with
  | none => (st, inst)
  | some pk =>
    match findMsg st.messages pk with
    | none => (st, inst)
    | some old =>
      if old.content ≠ inst.content then
        ({ st with histories := st.histories ++
            [{ messagePk := pk, oldContent := old.content,
               editedBy := some inst.sender, editedAt := st.now }] },
         { inst with edited := true, lastEditedAt := some st.now })
      else (st, inst)

/-- The post_save receiver `create_message_notification`: on creation, create
one notification addressed to the receiver whose content names the sender. -/
def create_message_notification (st : State) (inst : MsgInstance) (pk : Nat)
    (created : Bool) : State :=
  if created then
    { st with notifications := st.notifications ++
        [{ user := inst.receiver, messagePk := some pk, ntype := "message",
           content := "You have a new message from " ++ inst.sender.username,
           isRead := false, createdAt := st.now }] }
  else st

/-- The second post_save receiver `log_message_creation`: it only prints, so it
never changes the database state. -/
def log_message_creation (st : State) (_inst : MsgInstance) (_created : Bool) :
    State :=
  st

/-- The row written to the messages table when an instance is saved. -/
def rowOf (inst : MsgInstance) (pk : Nat) : MsgRow :=
  { pk := pk, sender := inst.sender, receiver := inst.receiver,
    content := inst.content, edited := inst.edited,
    lastEditedAt := inst.lastEditedAt }

/-- The database write inside `Model.save`: update the row carrying this
primary key when one exists, otherwise insert; the returned flag is the
`created` argument handed to the post_save receivers. -/
def db_write (st : State) (inst : MsgInstance) (pk : Nat) : State × Bool :=
  if (findMsg st.messages pk).isSome then
    ({ st with messages :=
        st.messages.map (fun m => if m.pk = pk then rowOf inst pk else m) },
     false)
  else
    ({ st with messages := st.messages ++ [rowOf inst pk] }, true)

/-- `Message.save()` together with its signal receivers: pre_save
`log_message_edit`, then the database write, then post_save
`create_message_notification` followed by `log_message_creation`.
`freshPk` is the key assigned when the instance has none. -/
def saveMessage (st : State) (inst : MsgInstance) (freshPk : Nat) : State :=
  let p := log_message_edit st inst
  let pk := p.2.pk.getD freshPk
  let q := db_write p.1 p.2 pk
  log_message_creation (create_message_notification q.1 p.2 pk q.2) p.2 q.2

/-- The edit flow used throughout the repository (and its tests): load the
message with key `pk`, assign new content, and save it. -/
def editContent (st : State) (pk : Nat) (c : String) : State :=
  match findMsg st.messages pk with
  | none => st
  | some m =>
    saveMessage st
      { pk := some m.pk, sender := m.sender, receiver := m.receiver,
        content := c, edited := m.edited, lastEditedAt := m.lastEditedAt }
      m.pk

/-- A sequence of content edits applied in order. -/
def editSeq (st : State) (pk : Nat) (cs : List String) : State :=
  cs.foldl (fun s c => editContent s pk c) st

/-- An edit performed by the acting user `actor`: the actor loads the message,
changes the content, and saves.  The pre_save interceptor receives only the
instance, never the acting user, so the outcome cannot depend on `actor`. -/
def editContentBy (st : State) (actor : UserRow) (pk : Nat) (c : String) :
    State :=
  let _ := actor
  editContent st pk c

/-- Whether a message row references user `u` by one of its two foreign keys
(both declared with `on_delete=CASCADE`). -/
def msgRefs (m : MsgRow) (u : UserRow) : Bool :=
  m.sender.id == u.id || m.receiver.id == u.id

/-- `User.delete()` with the schema's referential actions: CASCADE removes the
messages the user sent or received and the notifications addressed to the
user; deleting those messages cascades in turn to their histories and
notifications; `SET_NULL` clears `edited_by` on surviving history rows. -/
def deleteUser (st : State) (u : UserRow) : State :=
  let deadPks := (st.messages.filter (fun m => msgRefs m u)).map (fun m => m.pk)
  { messages := st.messages.filter (fun m => !(msgRefs m u)),
    histories :=
      (st.histories.filter (fun h => !(deadPks.contains h.messagePk))).map
        (fun h =>
          if h.editedBy.any (fun e => e.id == u.id) then
            { h with editedBy := none }
          else h),
    notifications := st.notifications.filter
      (fun n => !(n.user.id == u.id) &&
        !(n.messagePk.any (fun p => deadPks.contains p))),
    now := st.now }

end Messaging

namespace Chats

/-- A stored `Message` row of the chats app: key, owning conversation, sender,
message type ("text" or "system"), and body.  The schema itself (models.py) is
not in the repository; the fields are the ones the viewset code reads. -/
structure ChatMessage where
  pk : Nat
  conversationId : Nat
  senderId : Nat
  messageType : String
  body : String
deriving DecidableEq, Repr

/-- A `MessageReadStatus` row: the per-(message, user) join row recording that
a user has seen a message. -/
structure ReadStatus where
  messagePk : Nat
  userId : Nat
deriving DecidableEq, Repr

/-- Database state of the chats app: user keys, the conversation-participant
join table, messages, and read-status rows. -/
structure ChatState where
  users : List Nat
  participants : List (Nat × Nat)
  messages : List ChatMessage
  readStatuses : List ReadStatus
deriving DecidableEq, Repr

/-- Whether a read-status row for message `pk` and user `u` exists
(`read_statuses__user=u` on a message, or `get_or_create` lookup). -/
def hasRS (st : ChatState) (pk u : Nat) : Bool :=
  st.readStatuses.any (fun r => r.messagePk == pk && r.userId == u)

/-- `conversation.messages.exclude(sender=u).exclude(read_statuses__user=u)`:
the currently-unread messages of conversation `c` for user `u`. -/
def unreadInConversation (st : ChatState) (c u : Nat) : List ChatMessage :=
  st.messages.filter (fun m =>
    m.conversationId == c && !(m.senderId == u) && !(hasRS st m.pk u))

/-- `ConversationViewSet.mark_read`: bulk-create one read-status row per
currently-unread message of the conversation (`ignore_conflicts=True`). -/
def conversation_mark_read (st : ChatState) (c u : Nat) : ChatState :=
  let newRows : List ReadStatus :=
    (unreadInConversation st c u).map (fun m => { messagePk := m.pk, userId := u })
  { st with readStatuses := st.readStatuses ++ newRows }

/-- `MessageViewSet.get_queryset`: the messages belonging to conversations in
which the user participates. -/
def visibleMessages (st : ChatState) (u : Nat) : List ChatMessage :=
  st.messages.filter (fun m =>
    st.participants.any (fun p => p.1 == m.conversationId && p.2 == u))

/-- `MessageViewSet.unread`: visible messages not sent by the user and lacking
a read-status row for the user, optionally restricted to one conversation. -/
def unread_messages (st : ChatState) (u : Nat) (cid : Option Nat) :
    List ChatMessage :=
  let base := (visibleMessages st u).filter (fun m =>
    !(m.senderId == u) && !(hasRS st m.pk u))
  match cid with
  | some c => base.filter (fun m => m.conversationId == c)
  | none => base

/-- Number of participants of conversation `c`
(`conversation.participants.count()`). -/
def participantCount (st : ChatState) (c : Nat) : Nat :=
  (st.participants.filter (fun p => p.1 == c)).length

/-- `ConversationViewSet.remove_participant`: 400 without a `user_id`; 404 for
an unknown user; 400 (and no change) when the conversation has at most one
participant; otherwise remove the user from the conversation and append a
system message about the removal.  Returns the new state and the HTTP
status. -/
def remove_participant (st : ChatState) (c requester : Nat)
    (userId : Option Nat) (freshPk : Nat) : ChatState × Nat :=
  match userId with
  | none => (st, 400)
  | some uid =>
    if st.users.contains uid then
      if participantCount st c ≤ 1 then (st, 400)
      else
        ({ st with
            participants :=
              st.participants.filter (fun p => !(p.1 == c && p.2 == uid)),
            messages := st.messages ++
              [{ pk := freshPk, conversationId := c, senderId := requester,
                 messageType := "system",
                 body := toString uid ++ " was removed from the conversation" }] },
         200)
    else (st, 404)

/-- `MessageViewSet.mark_read`: 400 for one's own message; otherwise
`get_or_create` the (message, user) read-status row.  Returns the new state,
the HTTP status, and the `created` flag distinguishing "marked as read" from
"was already read". -/
def message_mark_read (st : ChatState) (m : ChatMessage) (u : Nat) :
    ChatState × Nat × Bool :=
  if m.senderId == u then (st, 400, false)
  else if hasRS st m.pk u then (st, 200, false)
  else
    ({ st with readStatuses :=
        st.readStatuses ++ [{ messagePk := m.pk, userId := u }] },
     200, true)

end Chats

namespace Messaging

/-- Fixture: a first user. -/
def alice : UserRow := ⟨1, "alice"⟩

/-- Fixture: a second user. -/
def bob : UserRow := ⟨2, "bob"⟩

/-- Fixture: the empty database. -/
def emptyState : State := ⟨[], [], [], 0⟩

/-- Fixture: a fresh message instance from alice to bob. -/
def freshInst : MsgInstance := ⟨some 1, alice, bob, "hi", false, none⟩

/-- Fixture: a database holding one message from alice to bob. -/
def stOne : State := ⟨[⟨1, alice, bob, "hi", false, none⟩], [], [], 7⟩

theorem log_message_edit_no_pk (st : State) (inst : MsgInstance)
    (h : inst.pk = none) : log_message_edit st inst = (st, inst) := by
  simp [log_message_edit, h]

theorem log_message_edit_vanished (st : State) (inst : MsgInstance) (pk : Nat)
    (hpk : inst.pk = some pk) (h : findMsg st.messages pk = none) :
    log_message_edit st inst = (st, inst) := by
  simp [log_message_edit, hpk, h]

theorem log_message_edit_same (st : State) (inst : MsgInstance) (pk : Nat)
    (m : MsgRow) (hpk : inst.pk = some pk)
    (hm : findMsg st.messages pk = some m)
    (hc : m.content = inst.content) :
    log_message_edit st inst = (st, inst) := by
  simp [log_message_edit, hpk, hm, hc]

theorem log_message_edit_changed (st : State) (inst : MsgInstance) (pk : Nat)
    (m : MsgRow) (hpk : inst.pk = some pk)
    (hm : findMsg st.messages pk = some m)
    (hc : m.content ≠ inst.content) :
    log_message_edit st inst =
      ({ st with histories := st.histories ++
          [{ messagePk := pk, oldContent := m.content,
             editedBy := some inst.sender, editedAt := st.now }] },
       { inst with edited := true, lastEditedAt := some st.now }) := by
  simp [log_message_edit, hpk, hm, hc]

theorem db_write_insert (st : State) (inst : MsgInstance) (pk : Nat)
    (h : findMsg st.messages pk = none) :
    db_write st inst pk =
      ({ st with messages := st.messages ++ [rowOf inst pk] }, true) := by
  simp [db_write, h]

theorem db_write_update (st : State) (inst : MsgInstance) (pk : Nat)
    (h : (findMsg st.messages pk).isSome = true) :
    db_write st inst pk =
      ({ st with messages :=
          st.messages.map (fun m => if m.pk = pk then rowOf inst pk else m) },
       false) := by
  simp [db_write, h]

theorem log_message_edit_fields (st : State) (inst : MsgInstance) :
    (log_message_edit st inst).1.messages = st.messages ∧
    (log_message_edit st inst).1.notifications = st.notifications ∧
    (log_message_edit st inst).1.now = st.now ∧
    (log_message_edit st inst).2.pk = inst.pk ∧
    (log_message_edit st inst).2.sender = inst.sender ∧
    (log_message_edit st inst).2.receiver = inst.receiver ∧
    (log_message_edit st inst).2.content = inst.content := by
  unfold log_message_edit
  cases hpk : inst.pk with
  | none => simp [hpk]
  | some pk =>
    simp only [hpk]
    cases hm : findMsg st.messages pk with
    | none => simp [hm, hpk]
    | some m =>
      by_cases hc : m.content = inst.content <;> simp [hm, hc, hpk]

theorem saveMessage_new (st : State) (inst : MsgInstance) (fresh : Nat)
    (h : findMsg st.messages (inst.pk.getD fresh) = none) :
    saveMessage st inst fresh =
      { messages := st.messages ++ [rowOf inst (inst.pk.getD fresh)],
        histories := st.histories,
        notifications := st.notifications ++
          [{ user := inst.receiver, messagePk := some (inst.pk.getD fresh),
             ntype := "message",
             content := "You have a new message from " ++ inst.sender.username,
             isRead := false, createdAt := st.now }],
        now := st.now } := by
  have hedit : log_message_edit st inst = (st, inst) := by
    cases hpk : inst.pk with
    | none => exact log_message_edit_no_pk st inst hpk
    | some pk =>
      refine log_message_edit_vanished st inst pk hpk ?_
      rw [hpk] at h
      exact h
  simp only [saveMessage, hedit]
  rw [db_write_insert st inst (inst.pk.getD fresh) h]
  simp [create_message_notification, log_message_creation]

theorem saveMessage_existing_notifications (st : State) (inst : MsgInstance)
    (fresh : Nat) (h : (findMsg st.messages (inst.pk.getD fresh)).isSome = true) :
    (saveMessage st inst fresh).notifications = st.notifications := by
  obtain ⟨hmsgs, hnots, -, hpk, -⟩ := log_message_edit_fields st inst
  simp only [saveMessage]
  rw [hpk]
  rw [db_write_update _ _ _ (by rw [hmsgs]; exact h)]
  simp [create_message_notification, log_message_creation, hnots]

/-- C1: saving a new message row creates exactly one notification, addressed
to the message's receiver and with content containing the sender's username;
a save of an existing row creates no notification; and the second post_save
receiver (`log_message_creation`) never changes the database. -/
theorem c1_notification_on_creation (st : State) (inst : MsgInstance)
    (fresh : Nat) :
    (findMsg st.messages (inst.pk.getD fresh) = none →
      ∃ n : NotificationRow,
        (saveMessage st inst fresh).notifications = st.notifications ++ [n] ∧
        n.user = inst.receiver ∧
        ∃ a b : String, n.content = a ++ inst.sender.username ++ b) ∧
    ((findMsg st.messages (inst.pk.getD fresh)).isSome = true →
      (saveMessage st inst fresh).notifications = st.notifications) ∧
    (∀ (st' : State) (i' : MsgInstance) (c' : Bool),
      log_message_creation st' i' c' = st') := by
  refine ⟨fun h => ?_, fun h => saveMessage_existing_notifications st inst fresh h,
    fun _ _ _ => rfl⟩
  rw [saveMessage_new st inst fresh h]
  exact ⟨_, rfl, rfl, "You have a new message from ", "", by simp⟩

/-- Witness for C1 at a concrete fresh message. -/
theorem c1_notification_on_creation_witness :
    ∃ n : NotificationRow,
      (saveMessage emptyState freshInst 1).notifications =
        emptyState.notifications ++ [n] ∧
      n.user = freshInst.receiver ∧
      ∃ a b : String, n.content = a ++ freshInst.sender.username ++ b :=
  (c1_notification_on_creation emptyState freshInst 1).1 rfl

/-- C5: when a message instance carries a primary key whose stored row no
longer exists, the pre_save interceptor returns the state and the instance
unchanged, and the enclosing save creates no history row. -/
theorem c5_vanished_row (st : State) (inst : MsgInstance) (pk : Nat)
    (hpk : inst.pk = some pk) (hgone : findMsg st.messages pk = none) :
    log_message_edit st inst = (st, inst) ∧
    ∀ fresh : Nat, (saveMessage st inst fresh).histories = st.histories := by
  refine ⟨log_message_edit_vanished st inst pk hpk hgone, fun fresh => ?_⟩
  rw [saveMessage_new st inst fresh (by rw [hpk]; exact hgone)]

/-- Witness for C5: a keyed instance over the empty database. -/
theorem c5_vanished_row_witness :
    log_message_edit emptyState freshInst = (emptyState, freshInst) ∧
    ∀ fresh : Nat,
      (saveMessage emptyState freshInst fresh).histories =
        emptyState.histories :=
  c5_vanished_row emptyState freshInst 1 rfl rfl

theorem findMsg_pk (msgs : List MsgRow) (pk : Nat) (m : MsgRow)
    (hm : findMsg msgs pk = some m) : m.pk = pk := by
  have := List.find?_some hm
  simpa using this

theorem findMsg_isSome_of_eq_some (msgs : List MsgRow) (pk : Nat) (m : MsgRow)
    (hm : findMsg msgs pk = some m) : (findMsg msgs pk).isSome = true := by
  rw [hm]; rfl

theorem findMsg_map_update (msgs : List MsgRow) (pk : Nat) (m' : MsgRow)
    (hpk' : m'.pk = pk) (h : (findMsg msgs pk).isSome = true) :
    findMsg (msgs.map (fun r => if r.pk = pk then m' else r)) pk = some m' := by
  induction msgs with
  | nil => simp [findMsg] at h
  | cons a l ih =>
    by_cases ha : a.pk = pk
    · simp [findMsg, ha, hpk']
    · have h' : (findMsg l pk).isSome = true := by
        simpa [findMsg, List.find?_cons, ha] using h
      simpa [findMsg, List.find?_cons, ha] using ih h'

theorem map_update_pks (msgs : List MsgRow) (pk : Nat) (m' : MsgRow)
    (hpk' : m'.pk = pk) :
    (msgs.map (fun r => if r.pk = pk then m' else r)).map (fun r => r.pk) =
      msgs.map (fun r => r.pk) := by
  rw [List.map_map]
  refine List.map_congr_left fun r _ => ?_
  by_cases hr : r.pk = pk <;> simp [hr, hpk']

theorem map_update_self (msgs : List MsgRow) (pk : Nat) (m : MsgRow)
    (hnd : (msgs.map (fun r => r.pk)).Nodup)
    (hm : findMsg msgs pk = some m) :
    msgs.map (fun r => if r.pk = pk then m else r) = msgs := by
  induction msgs with
  | nil => simp
  | cons a l ih =>
    simp only [List.map_cons, List.nodup_cons] at hnd
    by_cases ha : a.pk = pk
    · have hsome : findMsg (a :: l) pk = some a := by
        simp [findMsg, List.find?_cons, ha]
      have hma : m = a := Option.some.inj (hm.symm.trans hsome)
      have htail : l.map (fun r => if r.pk = pk then m else r) = l := by
        have hne : ∀ r ∈ l, (if r.pk = pk then m else r) = id r := by
          intro r hr
          have : r.pk ≠ pk := fun hrpk =>
            hnd.1 (by rw [ha, ← hrpk]; exact List.mem_map_of_mem _ hr)
          simp [this]
        rw [List.map_congr_left hne, List.map_id]
      rw [hma] at htail
      simp [ha, hma, htail]
    · have hm' : findMsg l pk = some m := by
        simpa [findMsg, List.find?_cons, ha] using hm
      simp only [List.map_cons, if_neg ha]
      rw [ih hnd.2 hm']

theorem editContent_changed (st : State) (pk : Nat) (m : MsgRow) (c : String)
    (hm : findMsg st.messages pk = some m) (hc : c ≠ m.content) :
    editContent st pk c =
      { messages := st.messages.map (fun r => if r.pk = pk then
          { pk := pk, sender := m.sender, receiver := m.receiver, content := c,
            edited := true, lastEditedAt := some st.now } else r),
        histories := st.histories ++
          [{ messagePk := pk, oldContent := m.content,
             editedBy := some m.sender, editedAt := st.now }],
        notifications := st.notifications,
        now := st.now } := by
  have hpk := findMsg_pk st.messages pk m hm
  subst hpk
  simp only [editContent, hm]
  have hedit := log_message_edit_changed st
    ⟨some m.pk, m.sender, m.receiver, c, m.edited, m.lastEditedAt⟩ m.pk m
    rfl hm (by simpa using hc.symm)
  have hs : (findMsg st.messages m.pk).isSome = true :=
    findMsg_isSome_of_eq_some _ _ _ hm
  simp only [saveMessage, hedit, Option.getD_some]
  simp [db_write, hs, create_message_notification, log_message_creation, rowOf]

/-- C4: saving an existing message with unchanged content is a complete no-op
on the database: no history row, the edited flag and every other field left
exactly as stored. -/
theorem c4_noop_save (st : State) (pk : Nat) (m : MsgRow)
    (hnd : (st.messages.map (fun r => r.pk)).Nodup)
    (hm : findMsg st.messages pk = some m) :
    editContent st pk m.content = st ∧
    findMsg (editContent st pk m.content).messages pk = some m := by
  have hpk := findMsg_pk st.messages pk m hm
  subst hpk
  have hmain : editContent st m.pk m.content = st := by
    simp only [editContent, hm]
    have hedit := log_message_edit_same st
      ⟨some m.pk, m.sender, m.receiver, m.content, m.edited, m.lastEditedAt⟩
      m.pk m rfl hm rfl
    simp only [saveMessage, hedit, Option.getD_some]
    rw [db_write_update _ _ _ (findMsg_isSome_of_eq_some _ _ _ hm)]
    rw [show rowOf ⟨some m.pk, m.sender, m.receiver, m.content, m.edited,
          m.lastEditedAt⟩ m.pk = m from rfl]
    rw [map_update_self st.messages m.pk m hnd hm]
    simp [create_message_notification, log_message_creation]
  exact ⟨hmain, by rw [hmain]; exact hm⟩

/-- Witness for C4: a no-op save of the one stored message. -/
theorem c4_noop_save_witness :
    editContent stOne 1 (⟨1, alice, bob, "hi", false, none⟩ : MsgRow).content
        = stOne ∧
    findMsg (editContent stOne 1
        (⟨1, alice, bob, "hi", false, none⟩ : MsgRow).content).messages 1 =
      some ⟨1, alice, bob, "hi", false, none⟩ :=
  c4_noop_save stOne 1 ⟨1, alice, bob, "hi", false, none⟩ (by simp [stOne]) rfl

/-- C3 as stated is false: the history row records the message's sender, not
the acting editor.  Here bob (the receiver) performs the edit, yet the single
history row written carries `edited_by = alice` (the sender). -/
theorem c3_counterexample :
    ((editContentBy stOne bob 1 "yo").histories.map (fun h => h.editedBy)) =
      [some alice] ∧ (some alice : Option UserRow) ≠ some bob := by
  refine ⟨?_, by decide⟩
  rw [show editContentBy stOne bob 1 "yo" = editContent stOne 1 "yo" from rfl]
  rw [editContent_changed stOne 1 ⟨1, alice, bob, "hi", false, none⟩ "yo" rfl
    (by decide)]
  rfl

/-- C3 (amended): for every content-changing update of an existing message,
the history row written by the pre-save interceptor records the message's
sender in `edited_by` (the acting editor only when the sender edits), and the
stored message is marked edited with `last_edited_at` set to the edit time. -/
theorem c3_edit_metadata (st : State) (actor : UserRow) (pk : Nat) (m : MsgRow)
    (c : String) (hm : findMsg st.messages pk = some m) (hc : c ≠ m.content) :
    (editContentBy st actor pk c).histories =
      st.histories ++ [{ messagePk := pk, oldContent := m.content,
                         editedBy := some m.sender, editedAt := st.now }] ∧
    findMsg (editContentBy st actor pk c).messages pk =
      some { pk := pk, sender := m.sender, receiver := m.receiver, content := c,
             edited := true, lastEditedAt := some st.now } := by
  have h := editContent_changed st pk m c hm hc
  rw [show editContentBy st actor pk c = editContent st pk c from rfl, h]
  exact ⟨rfl, findMsg_map_update _ _ _ rfl (findMsg_isSome_of_eq_some _ _ _ hm)⟩

/-- Witness for C3 (amended): alice's message edited with new content. -/
theorem c3_edit_metadata_witness :
    (editContentBy stOne bob 1 "new").histories =
      stOne.histories ++
        [{ messagePk := 1, oldContent := (⟨1, alice, bob, "hi", false,
            none⟩ : MsgRow).content,
           editedBy := some (⟨1, alice, bob, "hi", false, none⟩ : MsgRow).sender,
           editedAt := stOne.now }] ∧
    findMsg (editContentBy stOne bob 1 "new").messages 1 =
      some { pk := 1, sender := (⟨1, alice, bob, "hi", false, none⟩ : MsgRow).sender,
             receiver := (⟨1, alice, bob, "hi", false, none⟩ : MsgRow).receiver,
             content := "new", edited := true, lastEditedAt := some stOne.now } :=
  c3_edit_metadata stOne bob 1 ⟨1, alice, bob, "hi", false, none⟩ "new" rfl
    (by decide)

theorem editSeq_histories (cs : List String) :
    ∀ (st : State) (pk : Nat) (m : MsgRow),
      findMsg st.messages pk = some m →
      List.Chain' (· ≠ ·) (m.content :: cs) →
      (editSeq st pk cs).histories.map (fun h => (h.messagePk, h.oldContent)) =
        st.histories.map (fun h => (h.messagePk, h.oldContent)) ++
          ((m.content :: cs).dropLast.map (fun c => (pk, c))) := by
  induction cs with
  | nil =>
    intro st pk m _ _
    simp [editSeq]
  | cons c rest ih =>
    intro st pk m hm hch
    rw [List.chain'_cons] at hch
    obtain ⟨hne, hch'⟩ := hch
    have hst := editContent_changed st pk m c hm (Ne.symm hne)
    have hfind : findMsg (editContent st pk c).messages pk =
        some ⟨pk, m.sender, m.receiver, c, true, some st.now⟩ := by
      rw [hst]
      exact findMsg_map_update _ _ _ rfl (findMsg_isSome_of_eq_some _ _ _ hm)
    have hstep : editSeq st pk (c :: rest) =
        editSeq (editContent st pk c) pk rest := rfl
    rw [hstep, ih (editContent st pk c) pk
      ⟨pk, m.sender, m.receiver, c, true, some st.now⟩ hfind hch', hst]
    simp [List.dropLast_cons₂]

/-- C2: each content-changing save of an existing message appends exactly one
history row holding the pre-update content, so a chain of N changing edits
yields the N pre-edit contents as history rows in order; and a save of a new
message row never creates a history row. -/
theorem c2_history_per_edit (st : State) (pk : Nat) (m : MsgRow)
    (cs : List String) (hm : findMsg st.messages pk = some m)
    (hch : List.Chain' (· ≠ ·) (m.content :: cs)) :
    (editSeq st pk cs).histories.map (fun h => (h.messagePk, h.oldContent)) =
      st.histories.map (fun h => (h.messagePk, h.oldContent)) ++
        ((m.content :: cs).dropLast.map (fun c => (pk, c))) ∧
    (∀ (s : State) (inst : MsgInstance) (fresh : Nat),
      findMsg s.messages (inst.pk.getD fresh) = none →
      (saveMessage s inst fresh).histories = s.histories) :=
  ⟨editSeq_histories cs st pk m hm hch,
   fun s inst fresh h => by rw [saveMessage_new s inst fresh h]⟩

/-- Witness for C2: three successive content-changing edits of one message. -/
theorem c2_history_per_edit_witness :
    (editSeq stOne 1 ["a", "b", "c"]).histories.map
        (fun h => (h.messagePk, h.oldContent)) =
      stOne.histories.map (fun h => (h.messagePk, h.oldContent)) ++
        (((⟨1, alice, bob, "hi", false, none⟩ : MsgRow).content ::
            ["a", "b", "c"]).dropLast.map (fun c => (1, c))) ∧
    (∀ (s : State) (inst : MsgInstance) (fresh : Nat),
      findMsg s.messages (inst.pk.getD fresh) = none →
      (saveMessage s inst fresh).histories = s.histories) :=
  c2_history_per_edit stOne 1 ⟨1, alice, bob, "hi", false, none⟩ ["a", "b", "c"]
    rfl (List.chain'_cons.mpr ⟨by decide, List.chain'_cons.mpr ⟨by decide,
      List.chain'_cons.mpr ⟨by decide, List.chain'_singleton _⟩⟩⟩)

/-- Fixture: a third user. -/
def carol : UserRow := ⟨3, "carol"⟩

/-- Fixture: two messages (one involving alice, one not) and two
notifications (one per message). -/
def stMulti : State :=
  ⟨[⟨1, alice, bob, "x", false, none⟩, ⟨2, bob, carol, "y", false, none⟩],
   [],
   [⟨bob, some 1, "message", "n1", false, 0⟩,
    ⟨carol, some 2, "message", "n2", false, 0⟩],
   0⟩

/-- C6: deleting user `u` removes every message `u` sent or received and
every notification addressed to `u`; messages not involving `u`, and
notifications neither addressed to `u` nor attached to a message involving
`u`, survive the deletion unchanged. -/
theorem c6_user_cascade (st : State) (u : UserRow) :
    (∀ m ∈ (deleteUser st u).messages,
      m.sender.id ≠ u.id ∧ m.receiver.id ≠ u.id) ∧
    (∀ n ∈ (deleteUser st u).notifications, n.user.id ≠ u.id) ∧
    (∀ m ∈ st.messages, m.sender.id ≠ u.id → m.receiver.id ≠ u.id →
      m ∈ (deleteUser st u).messages) ∧
    (∀ n ∈ st.notifications, n.user.id ≠ u.id →
      (∀ p, n.messagePk = some p → ∀ m ∈ st.messages, m.pk = p →
        m.sender.id ≠ u.id ∧ m.receiver.id ≠ u.id) →
      n ∈ (deleteUser st u).notifications) := by
  refine ⟨?_, ?_, ?_, ?_⟩
  · intro m hm
    simp only [deleteUser, List.mem_filter, Bool.not_eq_true'] at hm
    have h2 := hm.2
    simp only [msgRefs, Bool.or_eq_false_iff, beq_eq_false_iff_ne] at h2
    exact h2
  · intro n hn
    simp only [deleteUser, List.mem_filter, Bool.and_eq_true,
      Bool.not_eq_true'] at hn
    exact beq_eq_false_iff_ne.mp hn.2.1
  · intro m hm h1 h2
    simp only [deleteUser, List.mem_filter, Bool.not_eq_true']
    refine ⟨hm, ?_⟩
    simp [msgRefs, h1, h2]
  · intro n hn hu hmsg
    simp only [deleteUser, List.mem_filter, Bool.and_eq_true,
      Bool.not_eq_true']
    refine ⟨hn, beq_eq_false_iff_ne.mpr hu, ?_⟩
    cases hp : n.messagePk with
    | none => rfl
    | some p =>
      simp only [Option.any_some]
      have hnot : p ∉ (st.messages.filter (fun m => msgRefs m u)).map
          (fun m => m.pk) := by
        intro hmem
        obtain ⟨m, hmf, hpk⟩ := List.mem_map.mp hmem
        obtain ⟨hm1, hm2⟩ := List.mem_filter.mp hmf
        obtain ⟨hs, hr⟩ := hmsg p hp m hm1 hpk
        simp [msgRefs, hs, hr] at hm2
      exact Bool.eq_false_iff.mpr (fun hcontains =>
        hnot (List.elem_iff.mp hcontains))

/-- Witness for C6: deleting alice spares bob's message to carol and carol's
notification, removes alice's message, and satisfies every conjunct at this
concrete database. -/
theorem c6_user_cascade_witness :
    ((⟨2, bob, carol, "y", false, none⟩ : MsgRow).sender.id ≠ alice.id ∧
      (⟨2, bob, carol, "y", false, none⟩ : MsgRow).receiver.id ≠ alice.id) ∧
    (⟨carol, some 2, "message", "n2", false, 0⟩ : NotificationRow).user.id ≠
      alice.id ∧
    (⟨2, bob, carol, "y", false, none⟩ : MsgRow) ∈
      (deleteUser stMulti alice).messages ∧
    (⟨carol, some 2, "message", "n2", false, 0⟩ : NotificationRow) ∈
      (deleteUser stMulti alice).notifications :=
  ⟨(c6_user_cascade stMulti alice).1 _ (by decide),
   (c6_user_cascade stMulti alice).2.1 _ (by decide),
   (c6_user_cascade stMulti alice).2.2.1 _ (by decide) (by decide) (by decide),
   (c6_user_cascade stMulti alice).2.2.2 _ (by decide) (by decide)
     (by
       intro p hp m hm hpk
       have hp2 : p = 2 := (Option.some.inj hp).symm
       subst hp2
       have : m = ⟨1, alice, bob, "x", false, none⟩ ∨
           m = ⟨2, bob, carol, "y", false, none⟩ := by
         simpa [stMulti] using hm
       rcases this with h | h <;> subst h
       · simp at hpk
       · exact ⟨by decide, by decide⟩)⟩

end Messaging

namespace Chats

theorem hasRS_append_left (rs rs' : List ReadStatus) (pk u : Nat)
    (h : rs.any (fun r => r.messagePk == pk && r.userId == u) = true) :
    (rs ++ rs').any (fun r => r.messagePk == pk && r.userId == u) = true := by
  rw [List.any_append, h, Bool.true_or]

theorem hasRS_after_mark (st : ChatState) (c u : Nat) (m : ChatMessage)
    (hm : m ∈ st.messages) (hcid : m.conversationId = c)
    (hsu : m.senderId ≠ u) :
    hasRS (conversation_mark_read st c u) m.pk u = true := by
  by_cases h0 : hasRS st m.pk u = true
  · exact hasRS_append_left _ _ _ _ h0
  · have h0' : hasRS st m.pk u = false := Bool.eq_false_iff.mpr h0
    have hmem : m ∈ unreadInConversation st c u := by
      simp only [unreadInConversation, List.mem_filter, Bool.and_eq_true,
        Bool.not_eq_true', beq_iff_eq, beq_eq_false_iff_ne]
      exact ⟨hm, ⟨hcid, hsu⟩, h0'⟩
    simp only [hasRS, conversation_mark_read, List.any_append, Bool.or_eq_true]
    refine Or.inr ?_
    rw [List.any_eq_true]
    exact ⟨⟨m.pk, u⟩, List.mem_map_of_mem _ hmem, by simp⟩

/-- C7: marking a conversation read creates a read-status row exactly for the
messages of the conversation not authored by the user and lacking an existing
row, and for nothing else; repeating the action changes nothing. -/
theorem c7_conversation_mark_read (st : ChatState) (c u : Nat) :
    (∀ r : ReadStatus,
      r ∈ (conversation_mark_read st c u).readStatuses ↔
        (r ∈ st.readStatuses ∨
          (r.userId = u ∧ ∃ m ∈ st.messages, m.pk = r.messagePk ∧
            m.conversationId = c ∧ m.senderId ≠ u ∧
            hasRS st m.pk u = false))) ∧
    conversation_mark_read (conversation_mark_read st c u) c u =
      conversation_mark_read st c u := by
  constructor
  · intro r
    obtain ⟨rp, ru⟩ := r
    simp only [conversation_mark_read, List.mem_append, List.mem_map,
      unreadInConversation, List.mem_filter, Bool.and_eq_true,
      Bool.not_eq_true', beq_iff_eq, beq_eq_false_iff_ne,
      ReadStatus.mk.injEq]
    constructor
    · rintro (h | ⟨m, ⟨hm, ⟨hcid, hsu⟩, hrs⟩, hpk, hu⟩)
      · exact Or.inl h
      · exact Or.inr ⟨hu.symm, m, hm, hpk, hcid, hsu, hrs⟩
    · rintro (h | ⟨hu, m, hm, hpk, hcid, hsu, hrs⟩)
      · exact Or.inl h
      · exact Or.inr ⟨m, ⟨hm, ⟨hcid, hsu⟩, hrs⟩, hpk, hu.symm⟩
  · have hnil : unreadInConversation (conversation_mark_read st c u) c u = [] := by
      unfold unreadInConversation
      rw [List.filter_eq_nil_iff]
      intro m hm hpred
      simp only [Bool.and_eq_true, Bool.not_eq_true', beq_iff_eq,
        beq_eq_false_iff_ne] at hpred
      obtain ⟨⟨hcid, hsu⟩, hrs⟩ := hpred
      rw [hasRS_after_mark st c u m hm hcid hsu] at hrs
      exact Bool.true_eq_false.mp hrs
    have hgen : ∀ s : ChatState, unreadInConversation s c u = [] →
        conversation_mark_read s c u = s := by
      intro s hs
      simp [conversation_mark_read, hs]
    exact hgen _ hnil

/-- C8: the unread listing for a user equals the messages of the user's
conversations not authored by the user and lacking a read-status row for the
user, optionally restricted to one conversation (and the reported count is
the size of that set). -/
theorem c8_unread_set (st : ChatState) (u : Nat) (cid : Option Nat)
    (m : ChatMessage) :
    m ∈ unread_messages st u cid ↔
      (m ∈ st.messages ∧
        (∃ p ∈ st.participants, p.1 = m.conversationId ∧ p.2 = u) ∧
        m.senderId ≠ u ∧
        ¬(∃ r ∈ st.readStatuses, r.messagePk = m.pk ∧ r.userId = u) ∧
        ∀ co : Nat, cid = some co → m.conversationId = co) := by
  cases cid with
  | none =>
    simp only [unread_messages, visibleMessages, hasRS, List.mem_filter,
      List.any_eq_true, List.any_eq_false, Bool.and_eq_true,
      Bool.not_eq_true', beq_iff_eq, beq_eq_false_iff_ne]
    constructor
    · rintro ⟨⟨hm, hpart⟩, hsu, hrs⟩
      refine ⟨hm, ?_, hsu, ?_, by intro co h; cases h⟩
      · obtain ⟨p, hp, h1, h2⟩ := hpart
        exact ⟨p, hp, h1, h2⟩
      · rintro ⟨r, hr, h1, h2⟩
        have := hrs r hr
        simp [h1, h2] at this
    · rintro ⟨hm, hpart, hsu, hrs, -⟩
      refine ⟨⟨hm, ?_⟩, hsu, ?_⟩
      · obtain ⟨p, hp, h1, h2⟩ := hpart
        exact ⟨p, hp, h1, h2⟩
      · intro r hr
        intro hcon
        exact hrs ⟨r, hr, hcon.1, hcon.2⟩
  | some co =>
    simp only [unread_messages, visibleMessages, hasRS, List.mem_filter,
      List.any_eq_true, List.any_eq_false, Bool.and_eq_true,
      Bool.not_eq_true', beq_iff_eq, beq_eq_false_iff_ne,
      Option.some.injEq]
    constructor
    · rintro ⟨⟨⟨hm, hpart⟩, hsu, hrs⟩, hco⟩
      refine ⟨hm, ?_, hsu, ?_, by rintro co' rfl; exact hco⟩
      · obtain ⟨p, hp, h1, h2⟩ := hpart
        exact ⟨p, hp, h1, h2⟩
      · rintro ⟨r, hr, h1, h2⟩
        have := hrs r hr
        simp [h1, h2] at this
    · rintro ⟨hm, hpart, hsu, hrs, hco⟩
      refine ⟨⟨⟨hm, ?_⟩, hsu, ?_⟩, hco co rfl⟩
      · obtain ⟨p, hp, h1, h2⟩ := hpart
        exact ⟨p, hp, h1, h2⟩
      · intro r hr hcon
        exact hrs ⟨r, hr, hcon.1, hcon.2⟩

end Chats

namespace Chats

/-- Fixture: one conversation (id 1) with participants 10 and 20, one message
sent by 10, and no read statuses. -/
def chatFix : ChatState :=
  ⟨[10, 20], [(1, 10), (1, 20)], [⟨100, 1, 10, "text", "hello"⟩], []⟩

theorem remove_keeps_participant (l : List (Nat × Nat)) (c uid : Nat)
    (hnd : l.Nodup)
    (h2 : 2 ≤ (l.filter (fun p => p.1 == c)).length) :
    1 ≤ ((l.filter (fun p => !(p.1 == c && p.2 == uid))).filter
        (fun p => p.1 == c)).length := by
  obtain ⟨a, b, rest, hv⟩ :
      ∃ a b rest, l.filter (fun p => p.1 == c) = a :: b :: rest := by
    rcases h : l.filter (fun p => p.1 == c) with _ | ⟨a, _ | ⟨b, rest⟩⟩
    · rw [h] at h2; simp at h2
    · rw [h] at h2; simp at h2
    · exact ⟨a, b, rest, h⟩
  have hndf : (a :: b :: rest).Nodup := hv ▸ hnd.filter _
  have hab : a ≠ b := by
    have h1 := (List.nodup_cons.mp hndf).1
    exact fun he => h1 (he ▸ List.mem_cons_self b rest)
  have hamem := List.mem_filter.mp (hv ▸ List.mem_cons_self a (b :: rest))
  have hbmem := List.mem_filter.mp
    (hv ▸ List.mem_cons_of_mem a (List.mem_cons_self b rest))
  have hac : a.1 = c := by simpa using hamem.2
  have hbc : b.1 = c := by simpa using hbmem.2
  have hsurv : ∃ x, x ∈ l ∧ x.1 = c ∧ x.2 ≠ uid := by
    by_cases hau : a.2 = uid
    · refine ⟨b, hbmem.1, hbc, fun hbu => hab ?_⟩
      exact Prod.ext (hac.trans hbc.symm) (hau.trans hbu.symm)
    · exact ⟨a, hamem.1, hac, hau⟩
  obtain ⟨x, hxl, hxc, hxu⟩ := hsurv
  have hx1 : x ∈ l.filter (fun p => !(p.1 == c && p.2 == uid)) := by
    refine List.mem_filter.mpr ⟨hxl, ?_⟩
    simp [hxu]
  have hx2 : x ∈ (l.filter (fun p => !(p.1 == c && p.2 == uid))).filter
      (fun p => p.1 == c) := by
    refine List.mem_filter.mpr ⟨hx1, ?_⟩
    simp [hxc]
  exact List.length_pos.mpr (List.ne_nil_of_mem hx2)

/-- C9: with a valid user id, remove_participant answers 400 and leaves the
state untouched when the conversation has at most one participant, and a
conversation with at least one participant keeps at least one participant
through any remove_participant call, so the action never empties a
conversation (on refusal the state is returned unchanged, so no system
message is created and the participant set is unmodified). -/
theorem c9_remove_participant_guard (st : ChatState)
    (c requester uid fresh : Nat) (hnd : st.participants.Nodup) :
    (uid ∈ st.users → participantCount st c ≤ 1 →
      remove_participant st c requester (some uid) fresh = (st, 400)) ∧
    (∀ userId : Option Nat, 1 ≤ participantCount st c →
      1 ≤ participantCount (remove_participant st c requester userId fresh).1 c) := by
  constructor
  · intro hu hle
    simp [remove_participant, hu, hle]
  · intro userId h1
    cases userId with
    | none => simpa [remove_participant] using h1
    | some uid' =>
      by_cases hcu : uid' ∈ st.users
      · by_cases hle : participantCount st c ≤ 1
        · simpa [remove_participant, hcu, hle] using h1
        · have h2 : 2 ≤ participantCount st c := by omega
          have hkeep := remove_keeps_participant st.participants c uid' hnd
            (by simpa [participantCount] using h2)
          have hle' :
              ¬((List.filter (fun p => p.1 == c) st.participants).length ≤ 1) := by
            simpa [participantCount] using hle
          simpa [remove_participant, hcu, hle', participantCount] using hkeep
      · simpa [remove_participant, hcu] using h1

/-- Witness for C9: refusing on an empty conversation, and removing one of
two participants leaves one. -/
theorem c9_remove_participant_guard_witness :
    remove_participant chatFix 2 10 (some 10) 999 = (chatFix, 400) ∧
    1 ≤ participantCount (remove_participant chatFix 1 10 (some 20) 999).1 1 :=
  ⟨(c9_remove_participant_guard chatFix 2 10 10 999 (by decide)).1 (by decide)
     (by decide),
   (c9_remove_participant_guard chatFix 1 10 20 999 (by decide)).2 (some 20)
     (by decide)⟩

/-- C10: the per-message mark_read action answers 400 and changes nothing
when the requester is the sender; otherwise it creates the (message, user)
read-status row exactly when none exists, reports whether the row was newly
created, and applying it twice equals applying it once. -/
theorem c10_message_mark_read (st : ChatState) (m : ChatMessage) (u : Nat) :
    (m.senderId = u → message_mark_read st m u = (st, 400, false)) ∧
    (m.senderId ≠ u → hasRS st m.pk u = true →
      message_mark_read st m u = (st, 200, false)) ∧
    (m.senderId ≠ u → hasRS st m.pk u = false →
      message_mark_read st m u =
        ({ st with readStatuses :=
            st.readStatuses ++ [{ messagePk := m.pk, userId := u }] },
         200, true)) ∧
    (message_mark_read (message_mark_read st m u).1 m u).1 =
      (message_mark_read st m u).1 := by
  refine ⟨fun hs => by simp [message_mark_read, hs], ?_, ?_, ?_⟩
  · intro hs hr
    simp [message_mark_read, hs, hr]
  · intro hs hr
    simp [message_mark_read, hs, hr]
  · by_cases hs : m.senderId = u
    · simp [message_mark_read, hs]
    · by_cases hr : hasRS st m.pk u = true
      · simp [message_mark_read, hs, hr]
      · have hr' : hasRS st m.pk u = false := Bool.eq_false_iff.mpr hr
        have hafter : hasRS { st with readStatuses :=
            st.readStatuses ++ [{ messagePk := m.pk, userId := u }] } m.pk u
              = true := by
          simp [hasRS, List.any_append]
        simp [message_mark_read, hs, hr', hafter]

/-- Witness for C10: the sender is refused; another user creates the row. -/
theorem c10_message_mark_read_witness :
    message_mark_read chatFix ⟨100, 1, 10, "text", "hello"⟩ 10 =
      (chatFix, 400, false) ∧
    message_mark_read chatFix ⟨100, 1, 10, "text", "hello"⟩ 20 =
      ({ chatFix with readStatuses :=
          chatFix.readStatuses ++ [{ messagePk := 100, userId := 20 }] },
       200, true) :=
  ⟨(c10_message_mark_read chatFix ⟨100, 1, 10, "text", "hello"⟩ 10).1 rfl,
   (c10_message_mark_read chatFix ⟨100, 1, 10, "text", "hello"⟩ 20).2.2.1
     (by decide) rfl⟩

end Chats

namespace Chats

/-- Witness for C7: user 20 marking conversation 1 read records the single
message 100, and repeating the action is a no-op. -/
theorem c7_conversation_mark_read_witness :
    (⟨100, 20⟩ : ReadStatus) ∈
      (conversation_mark_read chatFix 1 20).readStatuses ∧
    conversation_mark_read (conversation_mark_read chatFix 1 20) 1 20 =
      conversation_mark_read chatFix 1 20 :=
  ⟨((c7_conversation_mark_read chatFix 1 20).1 ⟨100, 20⟩).mpr
      (Or.inr ⟨rfl, ⟨100, 1, 10, "text", "hello"⟩, by decide, rfl, rfl,
        by decide, rfl⟩),
   (c7_conversation_mark_read chatFix 1 20).2⟩

/-- Witness for C8: the one message of the fixture is unread for user 20. -/
theorem c8_unread_set_witness :
    (⟨100, 1, 10, "text", "hello"⟩ : ChatMessage) ∈
      unread_messages chatFix 20 none :=
  (c8_unread_set chatFix 20 none ⟨100, 1, 10, "text", "hello"⟩).mpr
    ⟨by decide, ⟨(1, 20), by decide, rfl, rfl⟩, by decide,
     fun h => by simp [chatFix] at h, fun co h => nomatch h⟩

end Chats
